import Mathlib

/-!
Verification development for the `event-bus` repository.

The embedding below follows `src/src/react-hooks.ts` (which contains the
`EventBus` class after the separator) and `src/unnamed/part_000` (the
`WorkflowAPI` class).  Each definition is translated from the TypeScript
source; doc comments name the source symbol it embeds.

RxJS semantics embedded here (the code builds on `rxjs.Subject`):
`subject.next(event)` synchronously invokes the observers present when
`next` is called, in subscription order, over a snapshot of the observer
list; an observer unsubscribed while the loop is running is stopped and
skipped; an exception thrown by one observer callback is caught and
reported without stopping delivery to the remaining observers.
-/

namespace EventBus

/-- Case-insensitive character comparison: the `'i'` flag of the regular
expression built in `EventBus.subscribe`
(`new RegExp(topic.replace(/\*/g, '.*'), 'i')`). -/
def ciEq (a b : Char) : Bool := a.toLower == b.toLower

/-- One token of the compiled wildcard pattern.  `lit c` is a plain
character, `anyc` is the regex metacharacter `.` (any one character other
than a line terminator — the regex has no dotAll flag), and `star` stands
for the two-character regex fragment `.*` produced by the replacement of
`*` (zero or more such characters). -/
inductive Tok
  | lit (c : Char)
  | anyc
  | star
  deriving DecidableEq

/-- Compilation performed by `EventBus.subscribe` for wildcard topics:
`topic.replace(/\*/g, '.*')` viewed as a regular expression.  Every `*`
of the pattern becomes `.*` (token `star`), a `.` already present in the
pattern is the regex any-character metacharacter (token `anyc`), and any
other character is a literal.  This is a faithful translation for
patterns built from alphanumeric characters, `.` and `*` (the documented
topic alphabet); other regex metacharacters are not modelled. -/
def compilePat (p : List Char) : List Tok :=
  p.map fun c => if c == '*' then .star else if c == '.' then .anyc else .lit c

/-- The JavaScript line terminators (LF, CR, LINE SEPARATOR, PARAGRAPH
SEPARATOR).  The regex built by `subscribe` has no `s` (dotAll) flag, so
its `.` metacharacter — and hence the inserted `.*` — matches any
character except these. -/
def isLineTerminator (c : Char) : Bool :=
  c == '\n' || c == '\r' || c == '\u2028' || c == '\u2029'

/-- The suffixes of `s` reachable by dropping zero or more
non-line-terminator characters from the front: exactly the remainders a
(non-dotAll) `.*` can leave behind. -/
def starTails : List Char → List (List Char)
  | [] => [[]]
  | c :: s => (c :: s) :: (if isLineTerminator c then [] else starTails s)

/-- Anchored-at-start regex matching of a token list against a character
list.  Matching does not have to consume the whole input (the source uses
`regex.test`, which looks for a match anywhere); exhausted tokens succeed
on any remaining input.  `anyc` and `star` refuse line terminators,
because the regex is built without the dotAll flag. -/
def matchToks : List Tok → List Char → Bool
  | [], _ => true
  | .lit _ :: _, [] => false
  | .lit a :: ts, c :: s => ciEq a c && matchToks ts s
  | .anyc :: _, [] => false
  | .anyc :: ts, c :: s => !isLineTerminator c && matchToks ts s
  | .star :: ts, s => (starTails s).any fun s2 => matchToks ts s2

/-- `regex.test(topic)`: the compiled tokens match starting at some
position of the input (unanchored search). -/
def rtest (ts : List Tok) (s : List Char) : Bool :=
  s.tails.any fun s2 => matchToks ts s2

/-- `topic.includes('*')` — whether the subscription pattern contains the
wildcard marker. -/
def hasStar (p : String) : Bool := p.data.any fun c => c == '*'

/-- The wildcard branch of `EventBus.subscribe`:
`new RegExp(topic.replace(/\*/g, '.*'), 'i').test(event.topic)`. -/
def wildcardTest (p t : String) : Bool := rtest (compilePat p.data) t.data

/-- The filter each subscription applies to events, from
`EventBus.subscribe`: wildcard regex test when the pattern contains `*`,
otherwise the exact comparison `event.topic === topic`. -/
def busMatches (pattern topic : String) : Bool :=
  if hasStar pattern then wildcardTest pattern topic else pattern == topic

/-- `Event<T>` from `EventBus.ts`: `{ topic, data, timestamp, metadata? }`.
`metadata` (`Record<string, any>`) is modelled as an association list. -/
structure Event (α : Type) where
  topic : String
  data : α
  timestamp : Nat
  metadata : Option (List (String × String))
  deriving DecidableEq

/-- One registry entry: the key of the `subscriptions` map together with
the data captured by the listener closure built in `EventBus.subscribe`
(`listener(subscriptionId, event.topic, event.data, closure, customData)`).
`β` is the representation of the listener function. -/
structure Subscription (β : Type) where
  id : String
  pattern : String
  listener : β
  closure : Option String
  customData : Option String
  deriving DecidableEq

/-- The mutable state of an `EventBus` instance: the `subscriptions` map
(a JS `Map` iterates in insertion order, hence a list), the `eventHistory`
array and the `maxHistorySize` bound.  The `debug` flag only drives
`console.log` calls and is not modelled. -/
structure BusState (α β : Type) where
  subs : List (Subscription β)
  eventHistory : List (Event α)
  maxHistorySize : Nat
  deriving DecidableEq

/-- The `EventBus` constructor:
`this.maxHistorySize = options?.maxHistorySize || 100` — note that `||`
also replaces an explicit `0` (a falsy value) by the default `100`. -/
def mkEventBus {α β : Type} (maxHistorySize : Option Nat) : BusState α β :=
  { subs := []
    eventHistory := []
    maxHistorySize :=
      match maxHistorySize with
      | some n => if n == 0 then 100 else n
      | none => 100 }

/-- `this.subscriptions.has(subscriptionId)`. -/
def hasId {α β : Type} (st : BusState α β) (id : String) : Bool :=
  st.subs.any fun s => s.id == id

/-- `EventBus.subscribe`: a colliding id is logged and skipped, otherwise
the new subscription is appended (`Map.set` on a fresh key adds it at the
end of the iteration order). -/
def subscribe {α β : Type} (st : BusState α β) (id pattern : String)
    (listener : β) (closure customData : Option String) : BusState α β :=
  if hasId st id then st
  else { st with subs := st.subs ++ [⟨id, pattern, listener, closure, customData⟩] }

/-- `EventBus.unsubscribe`: if the id is present the rxjs subscription is
disposed and the entry deleted from the map; otherwise nothing happens. -/
def unsubscribe {α β : Type} (st : BusState α β) (id : String) : BusState α β :=
  if hasId st id then { st with subs := st.subs.filter fun s => s.id != id }
  else st

/-- `EventBus.unsubscribeAll`: disposes every subscription and clears the
map. -/
def unsubscribeAll {α β : Type} (st : BusState α β) : BusState α β :=
  { st with subs := [] }

/-- `EventBus.getActiveSubscriptions`: `Array.from(this.subscriptions.keys())`. -/
def getActiveSubscriptions {α β : Type} (st : BusState α β) : List String :=
  st.subs.map Subscription.id

/-- `EventBus.getHistory`: the whole history (a copy), or the entries with
exactly the given topic. -/
def getHistory {α β : Type} (st : BusState α β) (topic : Option String) : List (Event α) :=
  match topic with
  | some t => st.eventHistory.filter fun e => e.topic == t
  | none => st.eventHistory

/-- `EventBus.clearHistory`: `this.eventHistory.length = 0`. -/
def clearHistory {α β : Type} (st : BusState α β) : BusState α β :=
  { st with eventHistory := [] }

/-- `EventBus.addToHistory`: push the event, then `shift()` (drop the
oldest entry) when the length exceeds `maxHistorySize`. -/
def addToHistory {α : Type} (maxHistorySize : Nat) (hist : List (Event α))
    (ev : Event α) : List (Event α) :=
  let h := hist ++ [ev]
  if maxHistorySize < h.length then h.drop 1 else h

/-- Outcome of running one listener callback: it returns normally or it
throws (the message is what the surrounding rxjs machinery reports). -/
inductive ListenerStep
  | ok
  | ex (msg : String)
  deriving DecidableEq

/-- A listener that only observes (it may throw but does not call back
into the bus): `(subscriptionId, topic, data) ↦ outcome`. -/
def PureListener (α : Type) : Type := String → String → α → ListenerStep

/-- A bus whose listeners are pure observers. -/
def PureBus (α : Type) : Type := BusState α (PureListener α)

/-- Record of one listener invocation performed during delivery: the
arguments the wrapper in `EventBus.subscribe` passes to the listener. -/
structure Invocation (α : Type) where
  id : String
  topic : String
  data : α
  closure : Option String
  customData : Option String
  deriving DecidableEq

/-- Delivery loop of `subject.next(event)` over the observers in
subscription order: each subscription whose filter accepts the topic has
its listener invoked; a thrown exception is caught and recorded (second
component) without interrupting the loop. -/
def deliver {α : Type} (topic : String) (data : α) :
    List (Subscription (PureListener α)) → List (Invocation α) × List (String × String)
  | [] => ([], [])
  | s :: rest =>
    let tail := deliver topic data rest
    if busMatches s.pattern topic then
      match s.listener s.id topic data with
      | .ok => (⟨s.id, topic, data, s.closure, s.customData⟩ :: tail.1, tail.2)
      | .ex m => (⟨s.id, topic, data, s.closure, s.customData⟩ :: tail.1, (s.id, m) :: tail.2)
    else tail

/-- `EventBus.send`: build the event (the timestamp `Date.now()` is an
environment input), store it in the history, then emit it through the
subject.  Returns the new state, the listener invocations in order, and
the caught listener faults. -/
def send {α : Type} (st : PureBus α) (topic : String) (data : α) (ts : Nat)
    (metadata : Option (List (String × String))) :
    PureBus α × List (Invocation α) × List (String × String) :=
  let ev : Event α := ⟨topic, data, ts, metadata⟩
  let st2 : PureBus α :=
    { st with eventHistory := addToHistory st.maxHistorySize st.eventHistory ev }
  let r := deliver topic data st2.subs
  (st2, r.1, r.2)

/-- A sequence of `send` calls (topic, data, timestamp), keeping only the
state. -/
def runSends {α : Type} (st : PureBus α) (evs : List (String × α × Nat)) : PureBus α :=
  evs.foldl (fun s e => (send s e.1 e.2.1 e.2.2 none).1) st

end EventBus

namespace WorkflowAPI

open EventBus

/-- `WorkflowConfig` from `WorkflowAPI.ts`.  `execute` only reads
`successStates` and `errorStates`; the remaining fields are carried for
completeness. -/
structure WFConfig where
  workflow : String
  datasource : Option String
  successStates : Option (List String)
  errorStates : Option (List String)
  responseMapping : Option String

/-- The `header` object of the INIT and SUBMIT payloads. -/
structure WFHeader where
  registrationId : String
  workflow : String
  eventType : String
  deriving DecidableEq

/-- The optional `event` field of a STATE.CHANGE payload, carrying the
optional terminal `data`.  A present field models a truthy JS value. -/
structure WFInner (δ : Type) where
  data : Option δ
  deriving DecidableEq

/-- Shape of a STATE.CHANGE payload as read by the listener in
`WorkflowAPI.execute`: `eventData?.value` and `eventData.event?.data`. -/
structure WFEventData (δ : Type) where
  value : Option String
  event : Option (WFInner δ)
  deriving DecidableEq

/-- Payloads flowing on the bus in the workflow protocol: the INIT/SUBMIT
envelopes (`{ header, body? }`) and STATE.CHANGE payloads.  `δ` is the
opaque application data (params, terminal data). -/
inductive WFPayload (δ : Type)
  | msg (header : WFHeader) (body : Option δ)
  | state (ed : WFEventData δ)
  deriving DecidableEq

/-- One callback invocation observed during a workflow execution:
`onSuccess(eventData.event?.data)`, `onError(eventData.event?.data || eventData)`
(inl: the inner data was present, inr: the raw event payload), or
`onProgress(state, eventData)`. -/
inductive WFOut (δ : Type)
  | success (d : Option δ)
  | err (arg : δ ⊕ WFPayload δ)
  | progress (state : Option String) (ed : WFPayload δ)
  deriving DecidableEq

/-- The data captured by the closure of the listener registered in
`WorkflowAPI.execute`: the configured success and error state sets. -/
structure WFTag where
  succStates : List String
  errStates : List String
  deriving DecidableEq

/-- Combined state of one `WorkflowAPI` instance and the `EventBus` it
uses: the bus (whose listeners are all workflow STATE.CHANGE listeners of
this instance) and the instance field `this.subscriptionId`. -/
structure WFSystem (δ : Type) where
  bus : BusState (WFPayload δ) WFTag
  apiSubId : Option String
  deriving DecidableEq

/-- `eventData?.value` on an arbitrary payload. -/
def pval {δ : Type} : WFPayload δ → Option String
  | .state ed => ed.value
  | .msg _ _ => none

/-- `eventData.event` on an arbitrary payload. -/
def pevent {δ : Type} : WFPayload δ → Option (WFInner δ)
  | .state ed => ed.event
  | .msg _ _ => none

/-- `list.includes(value)` where the value may be `undefined`
(`undefined` is never an element of the configured string lists). -/
def optMem (v : Option String) (l : List String) : Bool :=
  match v with
  | some s => l.contains s
  | none => false

/-- `WorkflowAPI.cleanup`: if `this.subscriptionId` is set, unsubscribe it
from the bus and null the field; otherwise do nothing. -/
def cleanup {δ : Type} (sys : WFSystem δ) : WFSystem δ :=
  match sys.apiSubId with
  | some sid => { bus := EventBus.unsubscribe sys.bus sid, apiSubId := none }
  | none => sys

/-- The listener body registered by `WorkflowAPI.execute`: classify
`eventData?.value` against the captured success and error sets; terminal
outcomes invoke the callback and then `this.cleanup()`; any other value is
a progress notification. -/
def runListener {δ : Type} (tag : WFTag) (pl : WFPayload δ) (sys : WFSystem δ) :
    WFSystem δ × List (WFOut δ) :=
  let state := pval pl
  if optMem state tag.succStates then
    (cleanup sys, [.success ((pevent pl).bind WFInner.data)])
  else if optMem state tag.errStates then
    (cleanup sys,
      [.err (match (pevent pl).bind WFInner.data with
             | some d => Sum.inl d
             | none => Sum.inr pl)])
  else
    (sys, [.progress state pl])

/-- The `subject.next` loop specialised to workflow listeners: iterate
over the snapshot of matching subscriptions taken at publish time; a
subscriber unsubscribed while the loop runs is stopped and skipped
(rxjs drops stopped observers); listener effects (cleanup) thread through
the system state. -/
def deliverWF {δ : Type} (topic : String) (pl : WFPayload δ) :
    WFSystem δ → List (Subscription WFTag) → WFSystem δ × List (WFOut δ)
  | sys, [] => (sys, [])
  | sys, sub :: rest =>
    if EventBus.hasId sys.bus sub.id then
      let r1 := runListener sub.listener pl sys
      let r2 := deliverWF topic pl r1.1 rest
      (r2.1, r1.2 ++ r2.2)
    else deliverWF topic pl sys rest

/-- `EventBus.send` as exercised by the workflow layer: record the event
in the history, snapshot the matching subscriptions, then run the
delivery loop. -/
def sendWF {δ : Type} (sys : WFSystem δ) (topic : String) (pl : WFPayload δ)
    (ts : Nat) : WFSystem δ × List (WFOut δ) :=
  let bus2 : BusState (WFPayload δ) WFTag :=
    { sys.bus with
      eventHistory :=
        addToHistory sys.bus.maxHistorySize sys.bus.eventHistory ⟨topic, pl, ts, none⟩ }
  let snap := bus2.subs.filter fun s => busMatches s.pattern topic
  deliverWF topic pl { sys with bus := bus2 } snap

/-- `successStates = ['success']` destructuring default over
`config || {}`. -/
def succOf (cfg : Option WFConfig) : List String :=
  (cfg.bind WFConfig.successStates).getD ["success"]

/-- `errorStates = ['error', 'failure']` destructuring default over
`config || {}`. -/
def errOf (cfg : Option WFConfig) : List String :=
  (cfg.bind WFConfig.errorStates).getD ["error", "failure"]

/-- The topic `WF.<workflowName>.STATE.CHANGE`. -/
def stateTopic (name : String) : String := "WF." ++ name ++ ".STATE.CHANGE"

/-- The topic `WF.<workflowName>.INIT`. -/
def initTopic (name : String) : String := "WF." ++ name ++ ".INIT"

/-- The topic `WF.<workflowName>.SUBMIT`. -/
def submitTopic (name : String) : String := "WF." ++ name ++ ".SUBMIT"

/-- `WorkflowAPI.execute`: store the generated registration id (time and
randomness based, hence a parameter here), subscribe the classification
listener to the STATE.CHANGE topic, then send INIT and SUBMIT.  Returns
the resulting system together with every callback invoked during the two
sends. -/
def execute {δ : Type} (sys : WFSystem δ) (workflowName regId : String)
    (params : δ) (cfg : Option WFConfig) (ts1 ts2 : Nat) :
    WFSystem δ × List (WFOut δ) :=
  let s0 : WFSystem δ := { sys with apiSubId := some regId }
  let s1 : WFSystem δ :=
    { s0 with
      bus := EventBus.subscribe s0.bus regId (stateTopic workflowName)
        ⟨succOf cfg, errOf cfg⟩ none none }
  let r1 := sendWF s1 (initTopic workflowName)
    (.msg ⟨regId, workflowName, "INIT"⟩ none) ts1
  let r2 := sendWF r1.1 (submitTopic workflowName)
    (.msg ⟨regId, workflowName, "SUBMIT"⟩ (some params)) ts2
  (r2.1, r1.2 ++ r2.2)

/-- `WorkflowAPI.cancel`: `this.cleanup()` — no callback is invoked. -/
def cancel {δ : Type} (sys : WFSystem δ) : WFSystem δ := cleanup sys

/-- A fresh `new EventBus(...)` plus a fresh `new WorkflowAPI(bus, name)`
(whose `subscriptionId` starts as `null`). -/
def freshSystem (δ : Type) (opts : Option Nat) : WFSystem δ :=
  { bus := mkEventBus opts, apiSubId := none }

end WorkflowAPI

namespace EventBus

/-- A listener that returns normally. -/
def listenerOk (α : Type) : PureListener α := fun _ _ _ => .ok

/-- A listener that throws on every invocation. -/
def listenerBoom (α : Type) : PureListener α := fun _ _ _ => .ex "boom"

/-- Uniqueness of subscription ids, the registry invariant of §3 of the
spec. -/
def idsNodup {α β : Type} (st : BusState α β) : Prop :=
  (st.subs.map Subscription.id).Nodup

theorem deliver_trace {α : Type} (topic : String) (data : α)
    (subs : List (Subscription (PureListener α))) :
    (deliver topic data subs).1 =
      (subs.filter fun s => busMatches s.pattern topic).map
        fun s => ⟨s.id, topic, data, s.closure, s.customData⟩ := by
  induction subs with
  | nil => rfl
  | cons s rest ih =>
    simp only [deliver, List.filter_cons]
    cases h : busMatches s.pattern topic
    · simpa [h] using ih
    · cases hl : s.listener s.id topic data <;> simp [h, hl, ih]

theorem hasId_false_not_mem {α β : Type} (st : BusState α β) (id : String)
    (h : hasId st id = false) : id ∉ st.subs.map Subscription.id := by
  intro hmem
  rcases List.mem_map.mp hmem with ⟨s, hs, hid⟩
  have h2 := List.any_eq_false.mp h s hs
  rw [hid] at h2
  simp at h2

/-- C1: `publish(topic, data, metadata?)` builds an Event, appends it to
the history buffer, and then delivers it synchronously to every
subscription current at publish time whose pattern matches the topic, in
registration order; in particular subscribing `L1` then `L2` to the same
topic and publishing once invokes `L1` before `L2`. -/
theorem send_appends_history_and_delivers_in_order (α : Type) :
    (∀ (st : PureBus α) (topic : String) (data : α) (ts : Nat)
        (md : Option (List (String × String))),
      (send st topic data ts md).1 =
        { st with eventHistory :=
            addToHistory st.maxHistorySize st.eventHistory ⟨topic, data, ts, md⟩ }
      ∧ (send st topic data ts md).2.1 =
          (st.subs.filter fun s => busMatches s.pattern topic).map
            fun s => ⟨s.id, topic, data, s.closure, s.customData⟩)
    ∧ ((send (subscribe (subscribe (mkEventBus none) "L1" "T" (listenerOk Nat) none none)
          "L2" "T" (listenerOk Nat) none none) "T" 5 0 none).2.1.map Invocation.id
        = ["L1", "L2"]) := by
  refine ⟨fun st topic data ts md => ⟨rfl, deliver_trace topic data _⟩, ?_⟩
  rfl

/-- C3: a second `subscribe` under an already-present id leaves the bus
state (hence the existing subscription with its pattern, listener,
closure and custom data) completely unchanged and discards the new
subscription; id uniqueness is preserved by `subscribe` and `unsubscribe`
and `send` never touches the registry. -/
theorem subscribe_duplicate_id_rejected (α β : Type) :
    (∀ (st : BusState α β) (id p : String) (l : β) (c cd : Option String),
      hasId st id = true → subscribe st id p l c cd = st)
    ∧ (∀ (st : BusState α β) (id p : String) (l : β) (c cd : Option String),
      idsNodup st → idsNodup (subscribe st id p l c cd))
    ∧ (∀ (st : BusState α β) (id : String), idsNodup st → idsNodup (unsubscribe st id))
    ∧ (∀ (st : PureBus α) (topic : String) (data : α) (ts : Nat)
        (md : Option (List (String × String))),
      (send st topic data ts md).1.subs = st.subs) := by
  refine ⟨?_, ?_, ?_, ?_⟩
  · intro st id p l c cd h
    simp [subscribe, h]
  · intro st id p l c cd hnd
    by_cases h : hasId st id = true
    · simpa [subscribe, h] using hnd
    · have hf : hasId st id = false := by simpa using h
      have h2 := hasId_false_not_mem st id hf
      have h3 : ∀ x ∈ st.subs, ¬ x.id = id := by
        intro x hx heq
        exact h2 (heq ▸ List.mem_map_of_mem Subscription.id hx)
      simp only [idsNodup, subscribe, hf, Bool.false_eq_true, if_false, List.map_append]
      refine List.Nodup.append ?_ ?_ ?_
      · simpa [idsNodup] using hnd
      · simp
      · intro a ha hb
        rcases List.mem_map.mp ha with ⟨x, hx, rfl⟩
        simp only [List.map_cons, List.map_nil, List.mem_singleton] at hb
        exact h3 x hx hb
  · intro st id hnd
    by_cases h : hasId st id = true
    · simp only [unsubscribe, h, if_true]
      exact List.Nodup.sublist ((List.filter_sublist _).map Subscription.id) hnd
    · simpa [unsubscribe, h] using hnd
  · intro st topic data ts md
    rfl

/-- Witness for C3 at a concrete bus holding id "a". -/
theorem subscribe_duplicate_id_rejected_w :
    (subscribe (subscribe (mkEventBus none : PureBus Nat) "a" "X" (listenerOk Nat) none none)
        "a" "P" (listenerOk Nat) none none
      = subscribe (mkEventBus none : PureBus Nat) "a" "X" (listenerOk Nat) none none)
    ∧ idsNodup (subscribe (subscribe (mkEventBus none : PureBus Nat) "a" "X"
        (listenerOk Nat) none none) "a" "P" (listenerOk Nat) none none) := by
  refine ⟨(subscribe_duplicate_id_rejected Nat (PureListener Nat)).1 _ "a" "P" _ none none rfl, ?_⟩
  exact (subscribe_duplicate_id_rejected Nat (PureListener Nat)).2.1 _ "a" "P" _ none none
    (by simp [idsNodup, subscribe, mkEventBus, hasId])

/-- The bus on which C5's scenario runs: `L1` (which always throws)
registered before `L2`, both on topic "T". -/
def busTwoListeners : PureBus Nat :=
  subscribe (subscribe (mkEventBus none) "L1" "T" (listenerBoom Nat) none none)
    "L2" "T" (listenerOk Nat) none none

/-- C5: an uncaught exception in one listener neither propagates to the
publisher nor prevents delivery to the remaining listeners: with `L1`
throwing, `L2` still receives the event, the fault is only recorded, the
publish still updates the history; in general every matching listener is
invoked regardless of what earlier listeners throw. -/
theorem listener_fault_does_not_stop_delivery :
    ((send busTwoListeners "T" 7 0 none).2.1 =
      [⟨"L1", "T", 7, none, none⟩, ⟨"L2", "T", 7, none, none⟩])
    ∧ ((send busTwoListeners "T" 7 0 none).2.2 = [("L1", "boom")])
    ∧ ((send busTwoListeners "T" 7 0 none).1.eventHistory = [⟨"T", 7, 0, none⟩])
    ∧ (∀ (st : PureBus Nat) (topic : String) (data : Nat) (ts : Nat)
        (md : Option (List (String × String))),
      ((send st topic data ts md).2.1).map Invocation.id =
        (st.subs.filter fun s => busMatches s.pattern topic).map Subscription.id) := by
  refine ⟨rfl, rfl, rfl, fun st topic data ts md => ?_⟩
  rw [show (send st topic data ts md).2.1 = (deliver topic data st.subs).1 from rfl,
    deliver_trace]
  simp

/-- The bus on which C8's scenario runs: one subscription with the exact
pattern "A.B". -/
def busExact : PureBus Nat :=
  subscribe (mkEventBus none) "s1" "A.B" (listenerOk Nat) none none

/-- C8: a pattern without the wildcard marker matches a topic iff the two
strings are equal, case-sensitively; concretely, a subscription on "A.B"
is invoked exactly once with the published data by `publish("A.B", x)`,
never by `publish("A.C", x)`, and "A.B" does not match "a.b". -/
theorem exact_pattern_matches_iff_equal :
    (∀ p t : String, hasStar p = false → (busMatches p t = true ↔ p = t))
    ∧ ((send busExact "A.B" 9 0 none).2.1 = [⟨"s1", "A.B", 9, none, none⟩])
    ∧ ((send busExact "A.C" 9 0 none).2.1 = [])
    ∧ busMatches "A.B" "a.b" = false := by
  refine ⟨fun p t h => ?_, rfl, rfl, rfl⟩
  simp [busMatches, h]

/-- Witness for C8 at the concrete pattern "A.B". -/
theorem exact_pattern_matches_iff_equal_w :
    busMatches "A.B" "A.B" = true ↔ ("A.B" : String) = "A.B" :=
  exact_pattern_matches_iff_equal.1 "A.B" "A.B" (by decide)

/-- C10: `unsubscribe` (also on an absent id) and `unsubscribeAll` leave
the event history — and everything except the subscription registry —
unchanged: `getHistory` answers identically before and after, and an
`unsubscribe` on an unknown id changes nothing at all. -/
theorem unsubscribe_leaves_history_unchanged (α β : Type) :
    (∀ (st : BusState α β) (id : String),
      (unsubscribe st id).eventHistory = st.eventHistory
      ∧ (unsubscribe st id).maxHistorySize = st.maxHistorySize
      ∧ (∀ q, getHistory (unsubscribe st id) q = getHistory st q))
    ∧ (∀ (st : BusState α β) (id : String), hasId st id = false → unsubscribe st id = st)
    ∧ (∀ st : BusState α β,
      (unsubscribeAll st).eventHistory = st.eventHistory
      ∧ (unsubscribeAll st).maxHistorySize = st.maxHistorySize
      ∧ (∀ q, getHistory (unsubscribeAll st) q = getHistory st q)) := by
  refine ⟨fun st id => ?_, fun st id h => ?_, fun st => ?_⟩
  · by_cases h : hasId st id = true
    · refine ⟨by simp [unsubscribe, h], by simp [unsubscribe, h], fun q => ?_⟩
      cases q <;> simp [unsubscribe, h, getHistory]
    · refine ⟨by simp [unsubscribe, h], by simp [unsubscribe, h], fun q => ?_⟩
      cases q <;> simp [unsubscribe, h, getHistory]
  · simp [unsubscribe, h]
  · exact ⟨rfl, rfl, fun q => by cases q <;> rfl⟩

/-- Witness for C10 at a concrete bus without id "z". -/
theorem unsubscribe_leaves_history_unchanged_w :
    unsubscribe (mkEventBus none : PureBus Nat) "z" = (mkEventBus none : PureBus Nat) :=
  (unsubscribe_leaves_history_unchanged Nat (PureListener Nat)).2.1 _ "z" rfl

theorem addToHistory_length_le {α : Type} (N : Nat) (h : List (Event α)) (e : Event α)
    (hh : h.length ≤ N) : (addToHistory N h e).length ≤ N := by
  simp only [addToHistory]
  split
  · simp only [List.length_drop, List.length_append, List.length_cons, List.length_nil]
    omega
  · simp only [List.length_append, List.length_cons, List.length_nil] at *
    omega

theorem addToHistory_eq_drop {α : Type} (N : Nat) (h : List (Event α)) (e : Event α)
    (hh : h.length ≤ N) :
    addToHistory N h e = (h ++ [e]).drop (h.length + 1 - N) := by
  simp only [addToHistory]
  split
  · next hlt =>
    simp only [List.length_append, List.length_cons, List.length_nil] at hlt
    congr 1
    omega
  · next hge =>
    simp only [List.length_append, List.length_cons, List.length_nil, Nat.not_lt] at hge
    rw [show h.length + 1 - N = 0 by omega, List.drop_zero]

theorem foldl_addToHistory {α : Type} (N : Nat) :
    ∀ (es : List (Event α)) (h : List (Event α)), h.length ≤ N →
      es.foldl (addToHistory N) h = (h ++ es).drop (h.length + es.length - N) := by
  intro es
  induction es with
  | nil =>
    intro h hh
    simp only [List.foldl_nil, List.length_nil, List.append_nil, Nat.add_zero]
    rw [show h.length - N = 0 by omega, List.drop_zero]
  | cons e es ih =>
    intro h hh
    have hlen : (addToHistory N h e).length ≤ N := addToHistory_length_le N h e hh
    rw [List.foldl_cons, ih _ hlen, addToHistory_eq_drop N h e hh]
    have hk : h.length + 1 - N ≤ (h ++ [e]).length := by
      simp only [List.length_append, List.length_cons, List.length_nil]
      omega
    rw [← List.drop_append_of_le_length hk, List.drop_drop]
    have hl : (h ++ [e]) ++ es = h ++ e :: es := by
      simp [List.append_assoc]
    rw [hl]
    congr 1
    simp only [List.length_drop, List.length_append, List.length_cons, List.length_nil]
    omega

theorem runSends_state {α : Type} :
    ∀ (evs : List (String × α × Nat)) (st : PureBus α),
      (runSends st evs).eventHistory =
        (evs.map fun e => (⟨e.1, e.2.1, e.2.2, none⟩ : Event α)).foldl
          (addToHistory st.maxHistorySize) st.eventHistory
      ∧ (runSends st evs).maxHistorySize = st.maxHistorySize
      ∧ (runSends st evs).subs = st.subs := by
  intro evs
  induction evs with
  | nil => intro st; exact ⟨rfl, rfl, rfl⟩
  | cons e evs ih =>
    intro st
    rcases ih ((send st e.1 e.2.1 e.2.2 none).1) with ⟨h1, h2, h3⟩
    exact ⟨h1, h2, h3⟩

/-- C4 counterexample: the constructor maps an explicit
`maxHistorySize = 0` to the default 100 (`options?.maxHistorySize || 100`
treats `0` as absent), so a bus "constructed with maxHistorySize = N" for
N = 0 keeps more than N events: one publish already leaves one entry. -/
theorem history_bound_cex :
    (mkEventBus (some 0) : PureBus Nat).maxHistorySize = 100
    ∧ ¬ ((send (mkEventBus (some 0) : PureBus Nat) "T" 0 0 none).1.eventHistory.length ≤ 0) := by
  exact ⟨rfl, by decide⟩

/-- C4 (amended to positive capacities, which the constructor preserves):
for every `N ≥ 1`, after any sequence of publishes the history holds at
most `N` entries and equals exactly the last `N` published events in
insertion order — publishing `N+k` events evicts the oldest `k`. -/
theorem history_bound (α : Type) (N : Nat) (hN : 1 ≤ N)
    (evs : List (String × α × Nat)) :
    (runSends (mkEventBus (some N)) evs).eventHistory.length ≤ N
    ∧ (runSends (mkEventBus (some N)) evs).eventHistory =
        (evs.map fun e => (⟨e.1, e.2.1, e.2.2, none⟩ : Event α)).drop (evs.length - N) := by
  have hcap : (mkEventBus (some N) : PureBus α).maxHistorySize = N := by
    simp only [mkEventBus]
    rw [if_neg]
    simp only [beq_iff_eq]
    omega
  have hhist := (runSends_state evs (mkEventBus (some N) : PureBus α)).1
  rw [hcap] at hhist
  have hempty : ((mkEventBus (some N) : PureBus α)).eventHistory = [] := rfl
  rw [hempty] at hhist
  rw [foldl_addToHistory N _ [] (by simp)] at hhist
  simp only [List.nil_append, List.length_nil, Nat.zero_add] at hhist
  rw [hhist]
  constructor
  · simp only [List.length_drop, List.length_map]
    omega
  · simp only [List.length_map]

/-- The 7-event publish sequence of the C4 witness (capacity 2). -/
def sevenEvents : List (String × Nat × Nat) :=
  [("E1", 1, 0), ("E2", 2, 0), ("E3", 3, 0), ("E4", 4, 0),
   ("E5", 5, 0), ("E6", 6, 0), ("E7", 7, 0)]

/-- Witness for C4 with N = 2 and N + 5 publishes. -/
theorem history_bound_w :
    (runSends (mkEventBus (some 2)) sevenEvents).eventHistory.length ≤ 2
    ∧ (runSends (mkEventBus (some 2)) sevenEvents).eventHistory =
        (sevenEvents.map fun e => (⟨e.1, e.2.1, e.2.2, none⟩ : Event Nat)).drop
          (sevenEvents.length - 2) :=
  history_bound Nat 2 (by decide) sevenEvents

/-- Declarative semantics of a compiled token list against a character
list it consumes completely: a literal consumes one case-insensitively
equal character, `anyc` (a `.` of the pattern) consumes one character
that is not a line terminator, and `star` (a `*` of the pattern) consumes
an arbitrary prefix free of line terminators (the regex built by
`subscribe` has no dotAll flag). -/
inductive TokMatch : List Tok → List Char → Prop
  | nil : TokMatch [] []
  | lit {a c : Char} {ts : List Tok} {s : List Char} :
      ciEq a c = true → TokMatch ts s → TokMatch (.lit a :: ts) (c :: s)
  | anyc {c : Char} {ts : List Tok} {s : List Char} :
      isLineTerminator c = false → TokMatch ts s → TokMatch (.anyc :: ts) (c :: s)
  | star {ts : List Tok} (u : List Char) {v : List Char} :
      u.all (fun c => !isLineTerminator c) = true →
      TokMatch ts v → TokMatch (.star :: ts) (u ++ v)

theorem mem_starTails :
    ∀ (s t : List Char),
      t ∈ starTails s ↔
        ∃ u : List Char, s = u ++ t ∧ u.all (fun c => !isLineTerminator c) = true := by
  intro s
  induction s with
  | nil =>
    intro t
    simp only [starTails, List.mem_singleton]
    constructor
    · rintro rfl
      exact ⟨[], rfl, rfl⟩
    · rintro ⟨u, heq, hall⟩
      rcases List.append_eq_nil.mp heq.symm with ⟨rfl, rfl⟩
      rfl
  | cons c s ih =>
    intro t
    by_cases hlt : isLineTerminator c = true
    · simp only [starTails, hlt, if_true, List.mem_singleton]
      constructor
      · rintro rfl
        exact ⟨[], rfl, rfl⟩
      · rintro ⟨u, heq, hall⟩
        cases u with
        | nil =>
          simpa using heq.symm
        | cons d u2 =>
          rw [List.cons_append, List.cons.injEq] at heq
          rcases heq with ⟨rfl, rfl⟩
          simp only [List.all_cons, Bool.and_eq_true] at hall
          rw [hlt] at hall
          simp at hall
    · have hlf : isLineTerminator c = false := by simpa using hlt
      simp only [starTails, hlf, Bool.false_eq_true, if_false, List.mem_cons, ih]
      constructor
      · rintro (rfl | ⟨u2, rfl, hall2⟩)
        · exact ⟨[], rfl, rfl⟩
        · exact ⟨c :: u2, rfl, by simp [List.all_cons, hlf, hall2]⟩
      · rintro ⟨u, heq, hall⟩
        cases u with
        | nil =>
          left
          simpa using heq.symm
        | cons d u2 =>
          rw [List.cons_append, List.cons.injEq] at heq
          rcases heq with ⟨rfl, rfl⟩
          right
          simp only [List.all_cons, Bool.and_eq_true] at hall
          exact ⟨u2, rfl, hall.2⟩

theorem matchToks_iff :
    ∀ (ts : List Tok) (s : List Char),
      matchToks ts s = true ↔ ∃ s1 s2 : List Char, s = s1 ++ s2 ∧ TokMatch ts s1 := by
  intro ts
  induction ts with
  | nil =>
    intro s
    constructor
    · intro h2
      exact ⟨[], s, rfl, .nil⟩
    · intro h2
      rfl
  | cons t ts ih =>
    intro s
    cases t with
    | lit a =>
      cases s with
      | nil =>
        simp only [matchToks, Bool.false_eq_true, false_iff]
        rintro ⟨s1, s2, heq, hm⟩
        cases hm with
        | lit hc hm2 => simp at heq
      | cons c s =>
        simp only [matchToks, Bool.and_eq_true, ih]
        constructor
        · rintro ⟨hc, u, v, rfl, hm⟩
          exact ⟨c :: u, v, rfl, .lit hc hm⟩
        · rintro ⟨s1, s2, heq, hm⟩
          cases hm with
          | lit hc hm2 =>
            rw [List.cons_append, List.cons.injEq] at heq
            rcases heq with ⟨rfl, rfl⟩
            exact ⟨hc, _, s2, rfl, hm2⟩
    | anyc =>
      cases s with
      | nil =>
        simp only [matchToks, Bool.false_eq_true, false_iff]
        rintro ⟨s1, s2, heq, hm⟩
        cases hm with
        | anyc hm2 => simp at heq
      | cons c s =>
        simp only [matchToks, Bool.and_eq_true, Bool.not_eq_true', ih]
        constructor
        · rintro ⟨hlf, u, v, rfl, hm⟩
          exact ⟨c :: u, v, rfl, .anyc hlf hm⟩
        · rintro ⟨s1, s2, heq, hm⟩
          cases hm with
          | anyc hlf hm2 =>
            rw [List.cons_append, List.cons.injEq] at heq
            rcases heq with ⟨rfl, rfl⟩
            exact ⟨hlf, _, s2, rfl, hm2⟩
    | star =>
      simp only [matchToks, List.any_eq_true, mem_starTails]
      constructor
      · rintro ⟨t, ⟨w, rfl, hwall⟩, hm⟩
        rcases (ih t).mp hm with ⟨m, p, rfl, hmm⟩
        exact ⟨w ++ m, p, by simp [List.append_assoc], .star w hwall hmm⟩
      · rintro ⟨s1, s2, rfl, hm⟩
        cases hm with
        | star u hall hv =>
          exact ⟨_ ++ s2, ⟨u, by simp [List.append_assoc], hall⟩,
            (ih _).mpr ⟨_, s2, rfl, hv⟩⟩

theorem rtest_iff (ts : List Tok) (s : List Char) :
    rtest ts s = true ↔
      ∃ pre mid post : List Char, s = pre ++ mid ++ post ∧ TokMatch ts mid := by
  simp only [rtest, List.any_eq_true, List.mem_tails]
  constructor
  · rintro ⟨t, ht, hm⟩
    rcases ht with ⟨w, rfl⟩
    rcases (matchToks_iff ts t).mp hm with ⟨m, p, rfl, hmm⟩
    exact ⟨w, m, p, by simp [List.append_assoc], hmm⟩
  · rintro ⟨pre, mid, post, rfl, hm⟩
    exact ⟨mid ++ post, ⟨pre, by simp [List.append_assoc]⟩,
      (matchToks_iff _ _).mpr ⟨mid, post, rfl, hm⟩⟩

/-- Modelled from the spec wording of the wildcard contract, for
comparison with the source behaviour: every non-`*` character of the
pattern — including `.` — is taken literally, so a pattern matches a
topic iff its literal segments occur in the topic in order
(case-insensitively), with `*` absorbing zero or more characters. -/
def compileLit (p : List Char) : List Tok :=
  p.map fun c => if c == '*' then .star else .lit c

/-- The spec-worded literal-segment matcher (see `compileLit`). -/
def specLiteralMatch (p t : String) : Bool := rtest (compileLit p.data) t.data

/-- Patterns over the documented topic alphabet (alphanumerics, `.` and
`*`), for which `compilePat` is a faithful reading of the JavaScript
regex built by `subscribe`. -/
def plainPattern (p : String) : Bool :=
  p.data.all fun c => c.isAlphanum || c == '.' || c == '*'

/-- C2 counterexample: the claim reads the non-wildcard parts of the
pattern as literal segments, but the code turns the pattern into a regex
in which `.` matches any character: on pattern "USER.*" and topic
"USERX" the code matches although the literal segment "USER." does not
occur in the topic. -/
theorem wildcard_literal_reading_cex :
    busMatches "USER.*" "USERX" = true
    ∧ specLiteralMatch "USER.*" "USERX" = false := by
  exact ⟨by decide, by decide⟩

/-- C2 (amended): for a pattern containing `*` (over the documented
topic alphabet), the code matches exactly those topics with a substring
consumed by the compiled pattern, where `*` absorbs zero or more
arbitrary characters other than line terminators, `.` matches any single
character except a line terminator (a regex metacharacter without the
dotAll flag, not a literal), and every other character matches
case-insensitively; the search is unanchored. -/
theorem wildcard_match_characterisation (p t : String)
    (hstar : hasStar p = true) (_hplain : plainPattern p = true) :
    busMatches p t = true ↔
      ∃ pre mid post : List Char,
        t.data = pre ++ mid ++ post ∧ TokMatch (compilePat p.data) mid := by
  rw [show busMatches p t = wildcardTest p t by simp [busMatches, hstar]]
  exact rtest_iff _ _

/-- Witness for C2 on the pattern "USER.*" and a topic it matches only
case-insensitively and unanchored. -/
theorem wildcard_match_characterisation_w :
    busMatches "USER.*" "xuser.login" = true ↔
      ∃ pre mid post : List Char,
        ("xuser.login" : String).data = pre ++ mid ++ post
        ∧ TokMatch (compilePat ("USER.*" : String).data) mid :=
  wildcard_match_characterisation "USER.*" "xuser.login" (by decide) (by decide)

end EventBus

namespace WorkflowAPI

open EventBus

theorem stateTopic_ne_initTopic (name : String) : stateTopic name ≠ initTopic name := by
  intro h
  have h2 := congrArg String.length h
  simp only [stateTopic, initTopic, String.length_append] at h2
  rw [show (".STATE.CHANGE" : String).length = 13 from rfl,
    show (".INIT" : String).length = 5 from rfl] at h2
  omega

theorem stateTopic_ne_submitTopic (name : String) : stateTopic name ≠ submitTopic name := by
  intro h
  have h2 := congrArg String.length h
  simp only [stateTopic, submitTopic, String.length_append] at h2
  rw [show (".STATE.CHANGE" : String).length = 13 from rfl,
    show (".SUBMIT" : String).length = 7 from rfl] at h2
  omega

theorem sendWF_no_match {δ : Type} (sys : WFSystem δ) (topic : String)
    (pl : WFPayload δ) (ts : Nat)
    (h : sys.bus.subs.filter (fun s => busMatches s.pattern topic) = []) :
    (sendWF sys topic pl ts).1.bus.subs = sys.bus.subs
    ∧ (sendWF sys topic pl ts).1.apiSubId = sys.apiSubId
    ∧ (sendWF sys topic pl ts).1.bus.maxHistorySize = sys.bus.maxHistorySize
    ∧ (sendWF sys topic pl ts).2 = [] := by
  refine ⟨?_, ?_, ?_, ?_⟩ <;> simp [sendWF, h, deliverWF]

/-- The system state reached by `WorkflowAPI.execute` on a fresh bus and
a fresh `WorkflowAPI` instance. -/
def executedSystem (δ : Type) (opts : Option Nat) (name regId : String)
    (params : δ) (cfg : Option WFConfig) (ts1 ts2 : Nat) : WFSystem δ :=
  (execute (freshSystem δ opts) name regId params cfg ts1 ts2).1

theorem execute_fresh (δ : Type) (opts : Option Nat) (name regId : String)
    (params : δ) (cfg : Option WFConfig) (ts1 ts2 : Nat)
    (hp : hasStar (stateTopic name) = false) :
    (executedSystem δ opts name regId params cfg ts1 ts2).bus.subs
        = [⟨regId, stateTopic name, ⟨succOf cfg, errOf cfg⟩, none, none⟩]
    ∧ (executedSystem δ opts name regId params cfg ts1 ts2).apiSubId = some regId
    ∧ (execute (freshSystem δ opts) name regId params cfg ts1 ts2).2 = [] := by
  have hsub :
      (EventBus.subscribe (freshSystem δ opts).bus regId (stateTopic name)
          ⟨succOf cfg, errOf cfg⟩ none none).subs
        = [⟨regId, stateTopic name, ⟨succOf cfg, errOf cfg⟩, none, none⟩] := by
    simp [EventBus.subscribe, hasId, freshSystem, mkEventBus]
  have hmi : busMatches (stateTopic name) (initTopic name) = false := by
    simp only [busMatches, hp, Bool.false_eq_true, if_false]
    exact beq_eq_false_iff_ne.mpr (stateTopic_ne_initTopic name)
  have hms : busMatches (stateTopic name) (submitTopic name) = false := by
    simp only [busMatches, hp, Bool.false_eq_true, if_false]
    exact beq_eq_false_iff_ne.mpr (stateTopic_ne_submitTopic name)
  simp only [executedSystem, execute]
  simp [sendWF, hsub, List.filter_cons, hmi, hms, deliverWF]

/-- Running one STATE.CHANGE delivery on a system holding exactly the
execution's subscription: the three classification outcomes of the
listener registered by `WorkflowAPI.execute`. -/
theorem sendWF_one_sub {δ : Type} (sys : WFSystem δ) (t pat regId : String)
    (tag : WFTag) (pl : WFPayload δ) (ts : Nat)
    (hsubs : sys.bus.subs = [⟨regId, pat, tag, none, none⟩])
    (hapi : sys.apiSubId = some regId)
    (hm : busMatches pat t = true) :
    (optMem (pval pl) tag.succStates = true →
      (sendWF sys t pl ts).2 = [.success ((pevent pl).bind WFInner.data)]
      ∧ (sendWF sys t pl ts).1.apiSubId = none
      ∧ (sendWF sys t pl ts).1.bus.subs = [])
    ∧ (optMem (pval pl) tag.succStates = false →
        optMem (pval pl) tag.errStates = true →
      (sendWF sys t pl ts).2 =
        [.err (match (pevent pl).bind WFInner.data with
               | some d => Sum.inl d
               | none => Sum.inr pl)]
      ∧ (sendWF sys t pl ts).1.apiSubId = none
      ∧ (sendWF sys t pl ts).1.bus.subs = [])
    ∧ (optMem (pval pl) tag.succStates = false →
        optMem (pval pl) tag.errStates = false →
      (sendWF sys t pl ts).2 = [.progress (pval pl) pl]
      ∧ (sendWF sys t pl ts).1.apiSubId = some regId
      ∧ (sendWF sys t pl ts).1.bus.subs = [⟨regId, pat, tag, none, none⟩]) := by
  refine ⟨fun hsucc => ?_, fun hsucc herr => ?_, fun hsucc herr => ?_⟩
  · refine ⟨?_, ?_, ?_⟩ <;>
      simp [sendWF, hsubs, List.filter_cons, hm, deliverWF, hasId, runListener, hsucc,
        cleanup, hapi, EventBus.unsubscribe]
  · refine ⟨?_, ?_, ?_⟩ <;>
      simp [sendWF, hsubs, List.filter_cons, hm, deliverWF, hasId, runListener, hsucc, herr,
        cleanup, hapi, EventBus.unsubscribe]
  · refine ⟨?_, ?_, ?_⟩ <;>
      simp [sendWF, hsubs, List.filter_cons, hm, deliverWF, hasId, runListener, hsucc, herr,
        cleanup, hapi]

/-- C6: a STATE.CHANGE whose state value is in the configured success
states invokes the success callback exactly once with the inner event's
data payload; a value in the error states invokes the error callback with
the inner data, or the raw event payload if absent; in both terminal
cases the execution's subscription is unsubscribed, its id no longer
among the active subscription ids (and the INIT/SUBMIT sends of `execute`
invoke no callback at all). -/
theorem workflow_terminal_callback_and_cleanup (δ : Type) (opts : Option Nat)
    (name regId : String) (params : δ) (cfg : Option WFConfig)
    (ed : WFEventData δ) (ts1 ts2 ts3 : Nat)
    (hp : hasStar (stateTopic name) = false) :
    ((execute (freshSystem δ opts) name regId params cfg ts1 ts2).2 = [])
    ∧ (optMem ed.value (succOf cfg) = true →
        (sendWF (executedSystem δ opts name regId params cfg ts1 ts2)
            (stateTopic name) (.state ed) ts3).2
          = [.success (ed.event.bind WFInner.data)]
        ∧ (sendWF (executedSystem δ opts name regId params cfg ts1 ts2)
            (stateTopic name) (.state ed) ts3).1.apiSubId = none
        ∧ getActiveSubscriptions
            (sendWF (executedSystem δ opts name regId params cfg ts1 ts2)
              (stateTopic name) (.state ed) ts3).1.bus = [])
    ∧ (optMem ed.value (succOf cfg) = false → optMem ed.value (errOf cfg) = true →
        (sendWF (executedSystem δ opts name regId params cfg ts1 ts2)
            (stateTopic name) (.state ed) ts3).2
          = [.err (match ed.event.bind WFInner.data with
                   | some d => Sum.inl d
                   | none => Sum.inr (.state ed))]
        ∧ (sendWF (executedSystem δ opts name regId params cfg ts1 ts2)
            (stateTopic name) (.state ed) ts3).1.apiSubId = none
        ∧ getActiveSubscriptions
            (sendWF (executedSystem δ opts name regId params cfg ts1 ts2)
              (stateTopic name) (.state ed) ts3).1.bus = []) := by
  obtain ⟨hsubs, hapi, hexec⟩ := execute_fresh δ opts name regId params cfg ts1 ts2 hp
  have hm : busMatches (stateTopic name) (stateTopic name) = true := by
    simp [busMatches, hp]
  have h1 := sendWF_one_sub (executedSystem δ opts name regId params cfg ts1 ts2)
    (stateTopic name) (stateTopic name) regId ⟨succOf cfg, errOf cfg⟩ (.state ed) ts3
    hsubs hapi hm
  refine ⟨hexec, fun hs => ?_, fun hs he => ?_⟩
  · obtain ⟨o, a, s⟩ := h1.1 hs
    exact ⟨o, a, by simp [getActiveSubscriptions, s]⟩
  · obtain ⟨o, a, s⟩ := h1.2.1 hs he
    exact ⟨o, a, by simp [getActiveSubscriptions, s]⟩

/-- Witness for C6: the spec's success scenario, `{value:'success',
event:{data:2}}`, invokes the success callback once with `2` and removes
the subscription. -/
theorem workflow_terminal_callback_and_cleanup_w :
    (sendWF (executedSystem Nat none "W" "W.1.abc" 1 none 10 11) (stateTopic "W")
        (.state ⟨some "success", some ⟨some 2⟩⟩) 12).2
      = [.success (some 2)]
    ∧ (sendWF (executedSystem Nat none "W" "W.1.abc" 1 none 10 11) (stateTopic "W")
        (.state ⟨some "success", some ⟨some 2⟩⟩) 12).1.apiSubId = none
    ∧ getActiveSubscriptions
        (sendWF (executedSystem Nat none "W" "W.1.abc" 1 none 10 11) (stateTopic "W")
          (.state ⟨some "success", some ⟨some 2⟩⟩) 12).1.bus = [] :=
  (workflow_terminal_callback_and_cleanup Nat none "W" "W.1.abc" 1 none
    ⟨some "success", some ⟨some 2⟩⟩ 10 11 12 (by decide)).2.1 (by decide)

/-- C7: STATE.CHANGE values are classified against the two configurable
sets, which default to `{success}` and `{error, failure}`; a value in
neither set is forwarded to the progress callback and the execution stays
alive (the subscription remains registered), while a value of the
configured success set is terminal. -/
theorem workflow_state_classification (δ : Type) (opts : Option Nat)
    (name regId : String) (params : δ) (cfg : Option WFConfig)
    (ed : WFEventData δ) (ts1 ts2 ts3 : Nat)
    (hp : hasStar (stateTopic name) = false) :
    succOf none = ["success"]
    ∧ errOf none = ["error", "failure"]
    ∧ (optMem ed.value (succOf cfg) = false → optMem ed.value (errOf cfg) = false →
        (sendWF (executedSystem δ opts name regId params cfg ts1 ts2)
            (stateTopic name) (.state ed) ts3).2
          = [.progress ed.value (.state ed)]
        ∧ (sendWF (executedSystem δ opts name regId params cfg ts1 ts2)
            (stateTopic name) (.state ed) ts3).1.apiSubId = some regId
        ∧ getActiveSubscriptions
            (sendWF (executedSystem δ opts name regId params cfg ts1 ts2)
              (stateTopic name) (.state ed) ts3).1.bus = [regId])
    ∧ (optMem ed.value (succOf cfg) = true →
        (sendWF (executedSystem δ opts name regId params cfg ts1 ts2)
            (stateTopic name) (.state ed) ts3).2
          = [.success (ed.event.bind WFInner.data)]
        ∧ (sendWF (executedSystem δ opts name regId params cfg ts1 ts2)
            (stateTopic name) (.state ed) ts3).1.apiSubId = none) := by
  obtain ⟨hsubs, hapi, hexec⟩ := execute_fresh δ opts name regId params cfg ts1 ts2 hp
  have hm : busMatches (stateTopic name) (stateTopic name) = true := by
    simp [busMatches, hp]
  have h1 := sendWF_one_sub (executedSystem δ opts name regId params cfg ts1 ts2)
    (stateTopic name) (stateTopic name) regId ⟨succOf cfg, errOf cfg⟩ (.state ed) ts3
    hsubs hapi hm
  refine ⟨rfl, rfl, fun hs he => ?_, fun hs => ?_⟩
  · obtain ⟨o, a, s⟩ := h1.2.2 hs he
    exact ⟨o, a, by simp [getActiveSubscriptions, s]⟩
  · obtain ⟨o, a, s⟩ := h1.1 hs
    exact ⟨o, a⟩

/-- The configuration of the C7 witness: `successStates: ['DONE']`. -/
def cfgDone : Option WFConfig := some ⟨"W", none, some ["DONE"], none, none⟩

/-- Witness for C7: with `successStates: ['DONE']`, the value "DONE" is
terminal success while "success" is forwarded as progress and leaves the
subscription registered. -/
theorem workflow_state_classification_w :
    ((sendWF (executedSystem Nat none "W" "W.1.abc" 1 cfgDone 10 11) (stateTopic "W")
        (.state ⟨some "DONE", some ⟨some 3⟩⟩) 12).2
      = [.success (some 3)]
    ∧ (sendWF (executedSystem Nat none "W" "W.1.abc" 1 cfgDone 10 11) (stateTopic "W")
        (.state ⟨some "DONE", some ⟨some 3⟩⟩) 12).1.apiSubId = none)
    ∧ ((sendWF (executedSystem Nat none "W" "W.1.abc" 1 cfgDone 10 11) (stateTopic "W")
        (.state ⟨some "success", none⟩) 12).2
      = [.progress (some "success") (.state ⟨some "success", none⟩)]
    ∧ (sendWF (executedSystem Nat none "W" "W.1.abc" 1 cfgDone 10 11) (stateTopic "W")
        (.state ⟨some "success", none⟩) 12).1.apiSubId = some "W.1.abc"
    ∧ getActiveSubscriptions
        (sendWF (executedSystem Nat none "W" "W.1.abc" 1 cfgDone 10 11) (stateTopic "W")
          (.state ⟨some "success", none⟩) 12).1.bus = ["W.1.abc"]) :=
  ⟨(workflow_state_classification Nat none "W" "W.1.abc" 1 cfgDone
      ⟨some "DONE", some ⟨some 3⟩⟩ 10 11 12 (by decide)).2.2.2 (by decide),
   (workflow_state_classification Nat none "W" "W.1.abc" 1 cfgDone
      ⟨some "success", none⟩ 10 11 12 (by decide)).2.2.1 (by decide) (by decide)⟩

/-- C9: `cancel()` tears down the execution's subscription without
invoking any callback, cleanup is idempotent (`cancel` twice equals
`cancel` once on every system state), and a terminal STATE.CHANGE
arriving after cleanup invokes nothing and changes neither the registry
nor the instance field. -/
theorem workflow_cancel_idempotent (δ : Type) (opts : Option Nat)
    (name regId : String) (params : δ) (cfg : Option WFConfig)
    (ed : WFEventData δ) (ts1 ts2 ts3 : Nat)
    (hp : hasStar (stateTopic name) = false) :
    (∀ sys : WFSystem δ, cancel (cancel sys) = cancel sys)
    ∧ ((cancel (executedSystem δ opts name regId params cfg ts1 ts2)).bus.subs = []
       ∧ (cancel (executedSystem δ opts name regId params cfg ts1 ts2)).apiSubId = none)
    ∧ ((sendWF (cancel (executedSystem δ opts name regId params cfg ts1 ts2))
          (stateTopic name) (.state ed) ts3).2 = []
       ∧ (sendWF (cancel (executedSystem δ opts name regId params cfg ts1 ts2))
          (stateTopic name) (.state ed) ts3).1.bus.subs = []
       ∧ (sendWF (cancel (executedSystem δ opts name regId params cfg ts1 ts2))
          (stateTopic name) (.state ed) ts3).1.apiSubId = none) := by
  obtain ⟨hsubs, hapi, hexec⟩ := execute_fresh δ opts name regId params cfg ts1 ts2 hp
  have hcanc1 : (cancel (executedSystem δ opts name regId params cfg ts1 ts2)).bus.subs = [] := by
    simp [cancel, cleanup, hapi, EventBus.unsubscribe, hasId, hsubs]
  have hcanc2 : (cancel (executedSystem δ opts name regId params cfg ts1 ts2)).apiSubId = none := by
    simp [cancel, cleanup, hapi]
  have hnm := sendWF_no_match (cancel (executedSystem δ opts name regId params cfg ts1 ts2))
    (stateTopic name) (.state ed) ts3 (by simp [hcanc1])
  refine ⟨fun sys => ?_, ⟨hcanc1, hcanc2⟩, hnm.2.2.2, ?_, ?_⟩
  · cases h : sys.apiSubId with
    | none => simp [cancel, cleanup, h]
    | some sid => simp [cancel, cleanup, h]
  · rw [hnm.1, hcanc1]
  · rw [hnm.2.1, hcanc2]

/-- Witness for C9: cancelling the concrete executed workflow "W" empties
the registry and clears the instance field. -/
theorem workflow_cancel_idempotent_w :
    (cancel (executedSystem Nat none "W" "W.1.abc" 1 none 10 11)).bus.subs = []
    ∧ (cancel (executedSystem Nat none "W" "W.1.abc" 1 none 10 11)).apiSubId = none :=
  (workflow_cancel_idempotent Nat none "W" "W.1.abc" 1 none
    ⟨some "success", none⟩ 10 11 12 (by decide)).2.1

end WorkflowAPI
